import Mathlib

/-!
Shallow embedding of the game core of `src/server.js` (a Regenwormen-style
tile-collecting dice game server) together with theorems checking the
specification's claims against it.

Randomness is injected: the JS code draws `turnState.availableDice` dice with
`Math.random`; here every roll-dependent function takes the drawn face list as
an explicit argument.
-/

namespace Wurmke

/-- A tile, as in the `TILES` constant of `server.js`: `{ number, worms }`. -/
structure Tile where
  number : Nat
  worms : Nat
deriving DecidableEq, Repr

/-- The fixed 16-tile set from `server.js`. -/
def TILES : List Tile :=
  [⟨21, 1⟩, ⟨22, 1⟩, ⟨23, 1⟩, ⟨24, 1⟩,
   ⟨25, 2⟩, ⟨26, 2⟩, ⟨27, 2⟩, ⟨28, 2⟩,
   ⟨29, 3⟩, ⟨30, 3⟩, ⟨31, 3⟩, ⟨32, 3⟩,
   ⟨33, 4⟩, ⟨34, 4⟩, ⟨35, 4⟩, ⟨36, 4⟩]

/-- Die faces are the strings of `DICE_FACES` in `server.js`. -/
abbrev Face := String

def DICE_FACES : List Face := ["1", "2", "3", "4", "5", "worm"]

/-- `parseInt(face)` for the face strings the game uses (`"1"`..`"5"`);
other game faces never reach `parseInt` because of the `"worm"` guard in
`calculateDiceValue`, so the catch-all value is irrelevant to the model. -/
def faceNumericValue (face : Face) : Int :=
  if face = "1" then 1
  else if face = "2" then 2
  else if face = "3" then 3
  else if face = "4" then 4
  else if face = "5" then 5
  else 0

/-- `calculateDiceValue` from `server.js`: `face === "worm" ? 5 : parseInt(face)`. -/
def calculateDiceValue (face : Face) : Int :=
  if face = "worm" then 5 else faceNumericValue face

/-- The `turnState` record of `server.js`. The `faceCounts` field is omitted:
it is recomputed on every roll and only echoed to clients, never read by the
game logic. -/
structure TurnState where
  availableDice : Int
  selectedFaces : List Face
  currentScore : Int
  hasWorm : Bool
  rolledDice : List Face
deriving DecidableEq, Repr

/-- The turn state installed by `initializeGame` and by the turn-reset code in
`endPlayerTurn` / `endPlayerTurnBust`. -/
def initTurnState : TurnState :=
  { availableDice := 8
    selectedFaces := []
    currentScore := 0
    hasWorm := false
    rolledDice := [] }

/-- Helper for `distinctFaces`: keep the faces not seen before. -/
def distinctAux (seen : List Face) : List Face → List Face
  | [] => []
  | f :: rest =>
    if seen.contains f then distinctAux seen rest
    else f :: distinctAux (f :: seen) rest

/-- The distinct faces of a roll in first-appearance order:
`Object.keys(faceCounts)` in `server.js` (string keys enumerate in insertion
order, i.e. in order of first appearance in `diceResults`). -/
def distinctFaces (roll : List Face) : List Face :=
  distinctAux [] roll

/-- Occurrences of a face in a roll:
`rolledDice.filter((f) => f === face).length` in `server.js`. -/
def countFace (roll : List Face) (face : Face) : Nat :=
  (roll.filter (· == face)).length

/-- Result of `processRoll` in `server.js`. On `invalid` and `bust` the turn
state is untouched (the JS function returns before writing to it); on `rolled`
it carries the updated turn state. -/
inductive RollResult
  | invalid (error : String)
  | bust (diceResults : List Face)
  | rolled (ts : TurnState) (availableFaces : List Face)
deriving DecidableEq, Repr

/-- `processRoll` from `server.js`, with the drawn dice injected. The JS loop
draws exactly `turnState.availableDice` dice, so callers tie
`diceResults.length` to `ts.availableDice` where that matters. -/
def processRoll (ts : TurnState) (diceResults : List Face) : RollResult :=
  if ts.availableDice ≤ 0 then .invalid "No dice available"
  else
    let availableFaces :=
      (distinctFaces diceResults).filter (fun f => !(ts.selectedFaces.contains f))
    if availableFaces.isEmpty then .bust diceResults
    else .rolled { ts with rolledDice := diceResults } availableFaces

/-- Result of `selectDiceFace` in `server.js`; `success` carries the updated
turn state, the consumed-dice count and the points gained (the JS result's
`value` field holds `value * count`). -/
inductive SelectResult
  | failure (error : String)
  | success (ts : TurnState) (count : Nat) (points : Int)
deriving DecidableEq, Repr

/-- `selectDiceFace` from `server.js`. -/
def selectDiceFace (ts : TurnState) (face : Face) : SelectResult :=
  if ts.selectedFaces.contains face then
    .failure "Face already selected this turn"
  else if !(ts.rolledDice.contains face) then
    .failure "Face not in current roll"
  else
    let count := countFace ts.rolledDice face
    let value := calculateDiceValue face
    let pointsGained := value * count
    .success
      { availableDice := ts.availableDice - count
        selectedFaces := ts.selectedFaces ++ [face]
        currentScore := ts.currentScore + pointsGained
        hasWorm := ts.hasWorm || (face == "worm")
        rolledDice := [] }
      count pointsGained

example :
    selectDiceFace { initTurnState with rolledDice := ["1", "1", "5", "worm", "worm"] } "worm" =
      .success
        { availableDice := 6, selectedFaces := ["worm"], currentScore := 10,
          hasWorm := true, rolledDice := [] } 2 10 := by
  decide

/-- The `room.game` record of `server.js` restricted to the game core.
`playerStacks` is a JS object keyed by player id; string keys enumerate in
insertion order, so it is modelled as an association list in the room's player
order. -/
structure Game where
  tiles : List Tile
  playerStacks : List (String × List Tile)
  currentPlayerIndex : Nat
  currentPlayerId : String
  turnState : TurnState
deriving DecidableEq, Repr

/-- `game.playerStacks[pid]` (first binding for the key; `[]` when absent). -/
def getStack (sts : List (String × List Tile)) (pid : String) : List Tile :=
  match sts.find? (fun e => e.1 == pid) with
  | some e => e.2
  | none => []

/-- In-place update of `game.playerStacks[pid]`. -/
def setStack (sts : List (String × List Tile)) (pid : String) (s : List Tile) :
    List (String × List Tile) :=
  sts.map (fun e => if e.1 == pid then (e.1, s) else e)

/-- Tile order used by `game.tiles.sort((a, b) => a.number - b.number)`. -/
def tileLE (a b : Tile) : Prop := a.number ≤ b.number

instance : DecidableRel tileLE := fun a b => Nat.decLe a.number b.number

instance : IsTotal Tile tileLE := ⟨fun a b => Nat.le_total a.number b.number⟩

instance : IsTrans Tile tileLE := ⟨fun _ _ _ h h' => Nat.le_trans h h'⟩

/-- `tiles.sort((a, b) => a.number - b.number)`: sort ascending by `number`. -/
def sortTiles (l : List Tile) : List Tile :=
  l.insertionSort tileLE

/-- `initializeGame` from `server.js` (game-core part). -/
def initializeGame (roomPlayers : List String) : Game :=
  { tiles := TILES
    playerStacks := roomPlayers.map (fun pid => (pid, []))
    currentPlayerIndex := 0
    currentPlayerId := roomPlayers.headD ""
    turnState := initTurnState }

/-- The turn-rotation and turn-state-reset epilogue shared verbatim by
`endPlayerTurn` and `endPlayerTurnBust` in `server.js`. -/
def advanceTurn (roomPlayers : List String) (g : Game) : Game :=
  let idx := (g.currentPlayerIndex + 1) % roomPlayers.length
  { g with currentPlayerIndex := idx
           currentPlayerId := roomPlayers.getD idx ""
           turnState := initTurnState }

/-- `endPlayerTurnBust` from `server.js` (used by the `stop_turn` handler):
without a worm the player's top stack tile, if any, goes back to the supply,
which is then re-sorted; then game-over check and rotation. -/
def endPlayerTurnBust (roomPlayers : List String) (g : Game) (playerId : String) :
    Game × Bool :=
  let g1 :=
    if !g.turnState.hasWorm && !(getStack g.playerStacks playerId).isEmpty then
      match (getStack g.playerStacks playerId).getLast? with
      | some lostTile =>
        { g with
            playerStacks :=
              setStack g.playerStacks playerId (getStack g.playerStacks playerId).dropLast
            tiles := sortTiles (g.tiles ++ [lostTile]) }
      | none => g
    else g
  if g1.tiles.isEmpty then (g1, true)
  else (advanceTurn roomPlayers g1, false)

/-- The steal scan of `endPlayerTurn` in `server.js`: the first entry of
`playerStacks` (skipping `excludeId` when given) whose stack is non-empty and
whose top tile's `number` equals the score. -/
def findStealVictim (sts : List (String × List Tile)) (excludeId : Option String)
    (score : Int) : Option String :=
  (sts.find? (fun e =>
      (match excludeId with
       | some x => e.1 != x
       | none => true)
        && !e.2.isEmpty
        && (match e.2.getLast? with
            | some t => (t.number : Int) == score
            | none => false))).map Prod.fst

/-- Result of `endPlayerTurn`. `game` records the tile content of the supply
and every stack after the call, and `gameOver` the returned flag. `junkPushed`
is true exactly when the JS code pushed `undefined` onto the acting player's
stack: the named tile was found at the last supply index, so
`splice(tileIndex + 1, 1)` removed nothing and returned `[]`, and
`takenTile` is `undefined`. The player's stack then really ends with a junk
non-tile entry on top of the tiles recorded in `game` — a corrupted state on
which later stack-top reads would throw — and `game` holds only its tile
content. -/
structure EndTurnResult where
  game : Game
  gameOver : Bool
  junkPushed : Bool
deriving DecidableEq, Repr

/-- `endPlayerTurn(room, tile, playerId)` from `server.js`, as invoked by the
`select_tile` handler; `tileNumber` is the `number` of the client-named tile.
`game.tiles.splice(tileIndex + 1, 1)` removes the element *after* the found
index when one exists; when the found index is the last, the splice removes
nothing and the JS code pushes `undefined` onto the acting player's stack,
recorded by the `junkPushed` flag of the result. -/
def endPlayerTurn (roomPlayers : List String) (g : Game) (tileNumber : Nat)
    (playerId : String) : EndTurnResult :=
  let score := g.turnState.currentScore
  let step :=
    match g.tiles.findIdx? (fun t => t.number == tileNumber) with
    | some i =>
      match g.tiles.get? (i + 1) with
      | some takenTile =>
        ({ g with
            tiles := g.tiles.eraseIdx (i + 1)
            playerStacks :=
              setStack g.playerStacks playerId
                (getStack g.playerStacks playerId ++ [takenTile]) }, false)
      | none => (g, true)
    | none =>
      match findStealVictim g.playerStacks (some playerId) score with
      | some victim =>
        let stolen := (getStack g.playerStacks victim).getLast?.toList
        let stacks1 :=
          setStack g.playerStacks victim (getStack g.playerStacks victim).dropLast
        ({ g with
            playerStacks :=
              setStack stacks1 playerId (getStack stacks1 playerId ++ stolen) }, false)
      | none => (g, false)
  if step.1.tiles.isEmpty then ⟨step.1, true, step.2⟩
  else ⟨advanceTurn roomPlayers step.1, false, step.2⟩

/-- The `roll_dice` bust path of `server.js` calls `endPlayerTurn(rollRoom,
data.playerId)`, leaving the function's `tile` parameter bound to the
player-id string and its `playerId` parameter bound to `undefined`.
`tile.number` is then `undefined`, so the supply lookup finds no tile; the
steal scan excludes nobody (`pid !== undefined` holds for every entry) and, on
the first stack whose top tile's number equals the score, pops that tile and
then throws a `TypeError` evaluating `game.playerStacks[undefined].push(...)`.
`Except.error` carries the state at the throw: the popped tile is gone. -/
def endPlayerTurnOnBust (roomPlayers : List String) (g : Game) :
    Except Game (Game × Bool) :=
  let score := g.turnState.currentScore
  match findStealVictim g.playerStacks none score with
  | some victim =>
    .error
      { g with
          playerStacks :=
            setStack g.playerStacks victim (getStack g.playerStacks victim).dropLast }
  | none =>
    if g.tiles.isEmpty then .ok (g, true)
    else .ok (advanceTurn roomPlayers g, false)

/-- `stack.reduce((sum, tile) => sum + tile.worms, 0)` from `calculateWinner`. -/
def stackWorms (stack : List Tile) : Nat :=
  stack.foldl (fun s t => s + t.worms) 0

/-- One iteration of the `calculateWinner` loop: the running `(maxWorms,
winnerId)` pair is replaced only on a strict improvement. -/
def winnerStep (acc : Int × Option String) (e : String × List Tile) :
    Int × Option String :=
  if (stackWorms e.2 : Int) > acc.1 then ((stackWorms e.2 : Int), some e.1) else acc

/-- `calculateWinner` from `server.js`: fold over `Object.entries(playerStacks)`
(insertion order) starting from `maxWorms = -1`, `winnerId = null`. -/
def calculateWinner (sts : List (String × List Tile)) : Option String × Int :=
  let r := sts.foldl winnerStep (-1, none)
  (r.2, r.1)

/-- All tiles of a game: the supply plus every participant stack. -/
def allTilesList (g : Game) : List Tile :=
  g.tiles ++ (g.playerStacks.map Prod.snd).flatten

deriving instance DecidableEq for Except

/-! ### Helper lemmas -/

lemma sortTiles_coe (l : List Tile) :
    ((sortTiles l : List Tile) : Multiset Tile) = (l : Multiset Tile) :=
  Multiset.coe_eq_coe.mpr (List.perm_insertionSort tileLE l)

lemma sortTiles_sorted (l : List Tile) : List.Sorted tileLE (sortTiles l) :=
  List.sorted_insertionSort tileLE l

lemma sortTiles_append_singleton_coe (l : List Tile) (t : Tile) :
    ((sortTiles (l ++ [t]) : List Tile) : Multiset Tile) = t ::ₘ (l : Multiset Tile) := by
  rw [sortTiles_coe]
  exact Multiset.coe_eq_coe.mpr (List.perm_append_singleton t l) |>.trans
    (Multiset.cons_coe t l).symm

lemma getLast?_some_of_ne_nil (l : List Tile) (h : l ≠ []) :
    ∃ t, l.getLast? = some t := by
  cases l with
  | nil => exact absurd rfl h
  | cons a as => exact ⟨_, List.getLast?_eq_getLast (a :: as) (by simp)⟩

lemma getStack_cons (k : String) (v : List Tile) (rest : List (String × List Tile))
    (q : String) :
    getStack ((k, v) :: rest) q = if (k == q) = true then v else getStack rest q := by
  cases hkq : (k == q) <;> simp [getStack, List.find?, hkq]

lemma setStack_cons (k : String) (v s : List Tile) (rest : List (String × List Tile))
    (pid : String) :
    setStack ((k, v) :: rest) pid s =
      (if (k == pid) = true then (k, s) else (k, v)) :: setStack rest pid s := rfl

lemma getStack_setStack_ne (sts : List (String × List Tile)) (pid q : String)
    (s : List Tile) (h : q ≠ pid) :
    getStack (setStack sts pid s) q = getStack sts q := by
  induction sts with
  | nil => rfl
  | cons e rest ih =>
    obtain ⟨k, v⟩ := e
    rw [setStack_cons]
    cases hkp : (k == pid) with
    | true =>
      have hkq : (k == q) = false := by
        have : k = pid := by simpa using hkp
        subst this
        exact beq_eq_false_iff_ne.mpr (fun hkq => h hkq.symm)
      rw [if_pos rfl, getStack_cons, getStack_cons, hkq]
      simpa using ih
    | false =>
      rw [if_neg (by simp [hkp]), getStack_cons, getStack_cons]
      cases hkq : (k == q) with
      | true => simp
      | false => simpa using ih

lemma getStack_setStack_self (sts : List (String × List Tile)) (pid : String)
    (s : List Tile) (h : getStack sts pid ≠ []) :
    getStack (setStack sts pid s) pid = s := by
  induction sts with
  | nil => exact absurd rfl h
  | cons e rest ih =>
    obtain ⟨k, v⟩ := e
    rw [setStack_cons]
    cases hkp : (k == pid) with
    | true => rw [if_pos rfl, getStack_cons, hkp, if_pos rfl]
    | false =>
      rw [getStack_cons, hkp] at h
      rw [if_neg (by simp [hkp]), getStack_cons, hkp]
      simpa using ih (by simpa using h)

lemma getStack_setStack_key (sts : List (String × List Tile)) (pid : String)
    (s : List Tile) (h : (sts.map Prod.fst).contains pid = true) :
    getStack (setStack sts pid s) pid = s := by
  induction sts with
  | nil => exact absurd h (by simp)
  | cons e rest ih =>
    obtain ⟨k, v⟩ := e
    rw [setStack_cons]
    cases hkp : (k == pid) with
    | true => rw [if_pos rfl, getStack_cons, hkp, if_pos rfl]
    | false =>
      rw [if_neg (by simp [hkp]), getStack_cons, hkp]
      have hpk : (pid == k) = false := by
        have hne : k ≠ pid := by simpa using hkp
        exact beq_eq_false_iff_ne.mpr (fun e => hne e.symm)
      simp only [List.map_cons, List.contains_cons, hpk, Bool.false_or] at h
      simpa using ih h

lemma endPlayerTurnBust_noforfeit (rp : List String) (g : Game) (pid : String)
    (h : (!g.turnState.hasWorm && !(getStack g.playerStacks pid).isEmpty) = false) :
    (endPlayerTurnBust rp g pid).1.playerStacks = g.playerStacks ∧
    (endPlayerTurnBust rp g pid).1.tiles = g.tiles := by
  simp only [endPlayerTurnBust, h, Bool.false_eq_true, if_false]
  split <;> simp [advanceTurn]

lemma endPlayerTurnBust_forfeit (rp : List String) (g : Game) (pid : String) (t : Tile)
    (hw : g.turnState.hasWorm = false)
    (hne : (getStack g.playerStacks pid).isEmpty = false)
    (hlast : (getStack g.playerStacks pid).getLast? = some t) :
    (endPlayerTurnBust rp g pid).1.playerStacks =
      setStack g.playerStacks pid (getStack g.playerStacks pid).dropLast ∧
    (endPlayerTurnBust rp g pid).1.tiles = sortTiles (g.tiles ++ [t]) := by
  simp only [endPlayerTurnBust, hw, hne, hlast, Bool.not_false, Bool.and_self, if_true]
  split <;> simp [advanceTurn]

/-! ### Claim theorems -/

/-- Claim C10: the `stop_turn` operation (`endPlayerTurnBust`) never adds a tile
to the acting participant's stack and never touches any other participant's
stack; the only possible tile movement is the acting participant's own top tile
returning to the supply, with the rest of the supply unchanged (as a
multiset). -/
theorem endPlayerTurnBust_frame (rp : List String) (g : Game) (pid : String) :
    (∀ q, q ≠ pid →
      getStack (endPlayerTurnBust rp g pid).1.playerStacks q = getStack g.playerStacks q) ∧
    ((getStack (endPlayerTurnBust rp g pid).1.playerStacks pid = getStack g.playerStacks pid ∧
        ((endPlayerTurnBust rp g pid).1.tiles : Multiset Tile) = (g.tiles : Multiset Tile)) ∨
      (∃ t, (getStack g.playerStacks pid).getLast? = some t ∧
        getStack (endPlayerTurnBust rp g pid).1.playerStacks pid =
          (getStack g.playerStacks pid).dropLast ∧
        ((endPlayerTurnBust rp g pid).1.tiles : Multiset Tile) =
          t ::ₘ (g.tiles : Multiset Tile))) := by
  by_cases hw : g.turnState.hasWorm = true
  · obtain ⟨h1, h2⟩ := endPlayerTurnBust_noforfeit rp g pid (by simp [hw])
    exact ⟨fun q _ => by rw [h1], Or.inl ⟨by rw [h1], by rw [h2]⟩⟩
  · by_cases hs : (getStack g.playerStacks pid).isEmpty = true
    · obtain ⟨h1, h2⟩ := endPlayerTurnBust_noforfeit rp g pid (by simp [hs])
      exact ⟨fun q _ => by rw [h1], Or.inl ⟨by rw [h1], by rw [h2]⟩⟩
    · have hne : getStack g.playerStacks pid ≠ [] := by
        simpa [List.isEmpty_iff] using hs
      obtain ⟨t, hlast⟩ := getLast?_some_of_ne_nil _ hne
      obtain ⟨h1, h2⟩ := endPlayerTurnBust_forfeit rp g pid t
        (by simpa using hw) (by simpa using hs) hlast
      refine ⟨fun q hq => by rw [h1, getStack_setStack_ne _ _ _ _ hq], Or.inr ?_⟩
      exact ⟨t, hlast, by rw [h1, getStack_setStack_self _ _ _ hne],
        by rw [h2, sortTiles_append_singleton_coe]⟩

/-- Witness for claim C10 at a concrete game: player `"b"`'s stack is untouched
when `"a"` resolves. -/
theorem endPlayerTurnBust_frame_witness :
    getStack
        (endPlayerTurnBust ["a", "b"]
          { tiles := [⟨21, 1⟩]
            playerStacks := [("a", [⟨22, 1⟩]), ("b", [⟨23, 1⟩])]
            currentPlayerIndex := 0
            currentPlayerId := "a"
            turnState := initTurnState } "a").1.playerStacks "b" =
      getStack [("a", [⟨22, 1⟩]), ("b", [⟨23, 1⟩])] "b" :=
  (endPlayerTurnBust_frame ["a", "b"]
    { tiles := [⟨21, 1⟩]
      playerStacks := [("a", [⟨22, 1⟩]), ("b", [⟨23, 1⟩])]
      currentPlayerIndex := 0
      currentPlayerId := "a"
      turnState := initTurnState } "a").1 "b" (by decide)

/-- A game in which the acting player has a worm but a score below 21 and a
non-empty stack: per the spec this must forfeit, but the code checks only
`hasWorm`. -/
def lowScoreWormGame : Game :=
  { tiles := TILES.filter (fun t => t.number != 21)
    playerStacks := [("a", [⟨21, 1⟩]), ("b", [])]
    currentPlayerIndex := 0
    currentPlayerId := "a"
    turnState :=
      { availableDice := 7, selectedFaces := ["worm"], currentScore := 5,
        hasWorm := true, rolledDice := [] } }

/-- Counterexample to claim C3 as stated: with `hasWormFace` true and
`score = 5 < 21` and a non-empty stack, the `stop_turn` resolution forfeits
nothing — the acting player's stack and the supply are unchanged
(`endPlayerTurnBust` tests only `hasWorm`, never the score floor). -/
theorem low_score_with_worm_not_forfeited :
    lowScoreWormGame.turnState.hasWorm = true ∧
    lowScoreWormGame.turnState.currentScore < 21 ∧
    getStack lowScoreWormGame.playerStacks "a" ≠ [] ∧
    (endPlayerTurnBust ["a", "b"] lowScoreWormGame "a").1.playerStacks =
      lowScoreWormGame.playerStacks ∧
    (endPlayerTurnBust ["a", "b"] lowScoreWormGame "a").1.tiles =
      lowScoreWormGame.tiles := by
  decide

/-- Claim C3 (amended): in a `stop_turn` resolution the participant forfeits
exactly when `hasWormFace` is false — the `score < 21` case of the claim does
not forfeit. When `hasWormFace` is false and the stack is non-empty, the top
tile is popped and returned to the supply re-sorted ascending, other stacks are
untouched and no acquisition occurs; when `hasWormFace` is true the stacks and
the supply are unchanged regardless of the score. -/
theorem stop_turn_forfeit_iff_no_worm (rp : List String) (g : Game) (pid : String) :
    (g.turnState.hasWorm = false → getStack g.playerStacks pid ≠ [] →
      ∃ t, (getStack g.playerStacks pid).getLast? = some t ∧
        getStack (endPlayerTurnBust rp g pid).1.playerStacks pid =
          (getStack g.playerStacks pid).dropLast ∧
        (∀ q, q ≠ pid →
          getStack (endPlayerTurnBust rp g pid).1.playerStacks q =
            getStack g.playerStacks q) ∧
        (endPlayerTurnBust rp g pid).1.tiles = sortTiles (g.tiles ++ [t]) ∧
        List.Sorted tileLE (endPlayerTurnBust rp g pid).1.tiles ∧
        ((endPlayerTurnBust rp g pid).1.tiles : Multiset Tile) =
          t ::ₘ (g.tiles : Multiset Tile)) ∧
    (g.turnState.hasWorm = true →
      (endPlayerTurnBust rp g pid).1.playerStacks = g.playerStacks ∧
      (endPlayerTurnBust rp g pid).1.tiles = g.tiles) := by
  constructor
  · intro hw hne
    obtain ⟨t, hlast⟩ := getLast?_some_of_ne_nil _ hne
    obtain ⟨h1, h2⟩ := endPlayerTurnBust_forfeit rp g pid t hw
      (by simpa [List.isEmpty_iff] using hne) hlast
    refine ⟨t, hlast, by rw [h1, getStack_setStack_self _ _ _ hne],
      fun q hq => by rw [h1, getStack_setStack_ne _ _ _ _ hq], h2, ?_, ?_⟩
    · rw [h2]; exact sortTiles_sorted _
    · rw [h2, sortTiles_append_singleton_coe]
  · intro hw
    exact endPlayerTurnBust_noforfeit rp g pid (by simp [hw])

/-- Witness for claim C3 (amended) at a concrete game: a worm-less stop at a
one-tile stack pops the stack top. -/
theorem stop_turn_forfeit_iff_no_worm_witness :
    ∃ t,
      (getStack [("a", [(⟨22, 1⟩ : Tile)]), ("b", [])] "a").getLast? = some t ∧
      getStack
          (endPlayerTurnBust ["a", "b"]
            { tiles := [⟨21, 1⟩]
              playerStacks := [("a", [⟨22, 1⟩]), ("b", [])]
              currentPlayerIndex := 0
              currentPlayerId := "a"
              turnState := initTurnState } "a").1.playerStacks "a" =
        (getStack [("a", [(⟨22, 1⟩ : Tile)]), ("b", [])] "a").dropLast ∧
      (∀ q, q ≠ "a" →
        getStack
            (endPlayerTurnBust ["a", "b"]
              { tiles := [⟨21, 1⟩]
                playerStacks := [("a", [⟨22, 1⟩]), ("b", [])]
                currentPlayerIndex := 0
                currentPlayerId := "a"
                turnState := initTurnState } "a").1.playerStacks q =
          getStack [("a", [(⟨22, 1⟩ : Tile)]), ("b", [])] q) ∧
      (endPlayerTurnBust ["a", "b"]
          { tiles := [⟨21, 1⟩]
            playerStacks := [("a", [⟨22, 1⟩]), ("b", [])]
            currentPlayerIndex := 0
            currentPlayerId := "a"
            turnState := initTurnState } "a").1.tiles =
        sortTiles ([(⟨21, 1⟩ : Tile)] ++ [t]) ∧
      List.Sorted tileLE
        (endPlayerTurnBust ["a", "b"]
          { tiles := [⟨21, 1⟩]
            playerStacks := [("a", [⟨22, 1⟩]), ("b", [])]
            currentPlayerIndex := 0
            currentPlayerId := "a"
            turnState := initTurnState } "a").1.tiles ∧
      ((endPlayerTurnBust ["a", "b"]
          { tiles := [⟨21, 1⟩]
            playerStacks := [("a", [⟨22, 1⟩]), ("b", [])]
            currentPlayerIndex := 0
            currentPlayerId := "a"
            turnState := initTurnState } "a").1.tiles : Multiset Tile) =
        t ::ₘ ([(⟨21, 1⟩ : Tile)] : Multiset Tile) :=
  (stop_turn_forfeit_iff_no_worm ["a", "b"]
    { tiles := [⟨21, 1⟩]
      playerStacks := [("a", [⟨22, 1⟩]), ("b", [])]
      currentPlayerIndex := 0
      currentPlayerId := "a"
      turnState := initTurnState } "a").1 (by decide) (by decide)

/-- A game in which the claim C5 fallback would fire: worm committed, score 26,
no tile 26 in the supply, no stealable top tile of value 26, and the supply's
highest tile below 26 is 24. -/
def noFallbackGame : Game :=
  { tiles := [⟨21, 1⟩, ⟨24, 1⟩]
    playerStacks := [("a", []), ("b", [⟨30, 3⟩])]
    currentPlayerIndex := 0
    currentPlayerId := "a"
    turnState :=
      { availableDice := 0, selectedFaces := ["worm", "5", "4", "3"],
        currentScore := 26, hasWorm := true, rolledDice := [] } }

/-- Counterexample to claim C5 as stated: in `noFallbackGame` every fallback
precondition holds (worm, score 26 ≥ 21, no exact match, no steal, and tile 24
is the supply's highest below the score), yet no resolution removes tile 24
from the supply and pushes it onto the acting stack: a voluntary stop
(`endPlayerTurnBust`) leaves the supply and the acting stack unchanged, and
even explicitly naming tile 24 acquires nothing — 24 is the last supply index,
so `splice(tileIndex + 1, 1)` removes nothing, the supply still holds 24, the
acting stack gains no tile, and the only effect is the junk `undefined` entry
pushed onto the acting stack. -/
theorem no_fallback_counterexample :
    noFallbackGame.turnState.hasWorm = true ∧
    21 ≤ noFallbackGame.turnState.currentScore ∧
    (∀ t ∈ noFallbackGame.tiles, (t.number : Int) ≠ noFallbackGame.turnState.currentScore) ∧
    findStealVictim noFallbackGame.playerStacks (some "a")
      noFallbackGame.turnState.currentScore = none ∧
    (⟨24, 1⟩ : Tile) ∈ noFallbackGame.tiles ∧
    (24 : Int) < noFallbackGame.turnState.currentScore ∧
    (endPlayerTurnBust ["a", "b"] noFallbackGame "a").1.tiles = noFallbackGame.tiles ∧
    getStack (endPlayerTurnBust ["a", "b"] noFallbackGame "a").1.playerStacks "a" = [] ∧
    (⟨24, 1⟩ : Tile) ∈ (endPlayerTurn ["a", "b"] noFallbackGame 24 "a").game.tiles ∧
    (endPlayerTurn ["a", "b"] noFallbackGame 24 "a").game.tiles = noFallbackGame.tiles ∧
    getStack (endPlayerTurn ["a", "b"] noFallbackGame 24 "a").game.playerStacks "a" = [] ∧
    (endPlayerTurn ["a", "b"] noFallbackGame 24 "a").junkPushed = true := by
  decide

/-- A game inside the scope of claim C5 (worm, score 26 ≥ 21, no tile valued
26 in the supply, no steal target) whose supply is 21, 24, 30: naming tile 24
moves tile 30 — a tile above the score — onto the acting stack, so in-scope
`select_tile` calls can move a tile, just never the highest one below the
score. -/
def wrongFallbackGame : Game :=
  { tiles := [⟨21, 1⟩, ⟨24, 1⟩, ⟨30, 3⟩]
    playerStacks := [("a", []), ("b", [])]
    currentPlayerIndex := 0
    currentPlayerId := "a"
    turnState :=
      { availableDice := 2, selectedFaces := ["worm", "5", "4", "3"],
        currentScore := 26, hasWorm := true, rolledDice := [] } }

/-- Claim C5 (amended): the highest-supply-tile-below-the-score fallback rule
does not exist in the code. In a turn resolution where no steal applies: a
voluntary stop with a worm moves no tile whatever the score; a `select_tile`
resolution is driven only by the client-named tile — if its value is absent
from the supply nothing moves, if it is present at supply index `i` and a tile
exists at index `i + 1` that tile (whatever its value, possibly above the
score) moves onto the acting stack and other stacks are untouched, and if `i`
is the last index every tile stays in place and a junk `undefined` entry is
pushed onto the acting stack. -/
theorem no_fallback_resolution_behavior (rp : List String) (g : Game) (n : Nat)
    (pid : String) :
    (g.turnState.hasWorm = true →
      (endPlayerTurnBust rp g pid).1.tiles = g.tiles ∧
      (endPlayerTurnBust rp g pid).1.playerStacks = g.playerStacks) ∧
    ((∀ t ∈ g.tiles, t.number ≠ n) →
      findStealVictim g.playerStacks (some pid) g.turnState.currentScore = none →
      (endPlayerTurn rp g n pid).game.tiles = g.tiles ∧
      (endPlayerTurn rp g n pid).game.playerStacks = g.playerStacks ∧
      (endPlayerTurn rp g n pid).junkPushed = false) ∧
    (∀ i, g.tiles.findIdx? (fun t => t.number == n) = some i →
      (∀ t, g.tiles.get? (i + 1) = some t →
        (endPlayerTurn rp g n pid).game.tiles = g.tiles.eraseIdx (i + 1) ∧
        ((g.playerStacks.map Prod.fst).contains pid = true →
          getStack (endPlayerTurn rp g n pid).game.playerStacks pid =
            getStack g.playerStacks pid ++ [t]) ∧
        (∀ q, q ≠ pid →
          getStack (endPlayerTurn rp g n pid).game.playerStacks q =
            getStack g.playerStacks q) ∧
        (endPlayerTurn rp g n pid).junkPushed = false) ∧
      (g.tiles.get? (i + 1) = none →
        (endPlayerTurn rp g n pid).game.tiles = g.tiles ∧
        (endPlayerTurn rp g n pid).game.playerStacks = g.playerStacks ∧
        (endPlayerTurn rp g n pid).junkPushed = true)) := by
  refine ⟨?_, ?_, ?_⟩
  · intro hw
    exact And.comm.mp (endPlayerTurnBust_noforfeit rp g pid (by simp [hw]))
  · intro hexact hsteal
    have hidx : g.tiles.findIdx? (fun t => t.number == n) = none :=
      List.findIdx?_eq_none_iff.mpr
        (fun t ht => beq_eq_false_iff_ne.mpr (hexact t ht))
    simp only [endPlayerTurn, hidx, hsteal]
    split <;> exact ⟨rfl, rfl, rfl⟩
  · intro i hidx
    constructor
    · intro t hget
      simp only [endPlayerTurn, hidx, hget]
      split <;>
        exact ⟨rfl, fun hkey => getStack_setStack_key _ _ _ hkey,
          fun q hq => getStack_setStack_ne _ _ _ _ hq, rfl⟩
    · intro hget
      simp only [endPlayerTurn, hidx, hget]
      split <;> exact ⟨rfl, rfl, rfl⟩

/-- Witness for claim C5 (amended): in `wrongFallbackGame` (supply 21, 24, 30,
score 26), naming the in-supply tile 24 moves tile 30 onto the acting
stack. -/
theorem no_fallback_resolution_behavior_witness :
    getStack (endPlayerTurn ["a", "b"] wrongFallbackGame 24 "a").game.playerStacks "a" =
      getStack wrongFallbackGame.playerStacks "a" ++ [⟨30, 3⟩] :=
  (((no_fallback_resolution_behavior ["a", "b"] wrongFallbackGame 24 "a").2.2 1
      (by decide)).1 ⟨30, 3⟩ (by decide)).2.1 (by decide)

/-- A game one roll away from a bust whose accumulated score (22) equals the
top tile of player `"b"`'s stack: the remaining supply plus the stacks still
form the full 16-tile set. -/
def bustLossGame : Game :=
  { tiles := TILES.filter (fun t => t.number != 22)
    playerStacks := [("a", []), ("b", [⟨22, 1⟩])]
    currentPlayerIndex := 0
    currentPlayerId := "a"
    turnState :=
      { availableDice := 3, selectedFaces := ["worm", "2"], currentScore := 22,
        hasWorm := true, rolledDice := [] } }

/-- The state at the `TypeError` thrown by the bust resolution of
`bustLossGame`: the tile 22 has been popped from `"b"`'s stack and is gone. -/
def bustLossAfter : Game :=
  { bustLossGame with playerStacks := [("a", []), ("b", [])] }

/-- Claim C1 evaluated at its failing input: before the bust the supply and the
stacks together hold the fixed 16-tile set exactly once, the roll
`["worm", "2", "worm"]` is a bust (all its faces are already committed), and
the bust resolution — `endPlayerTurn(rollRoom, data.playerId)` with its
arguments shifted — pops tile 22 from `"b"`'s stack and then throws, leaving a
reachable state whose tile multiset is the 16-tile set with tile 22 destroyed
(15 tiles). -/
theorem bust_steal_crash_loses_tile :
    ((allTilesList bustLossGame : List Tile) : Multiset Tile) = (TILES : Multiset Tile) ∧
    processRoll bustLossGame.turnState ["worm", "2", "worm"] =
      .bust ["worm", "2", "worm"] ∧
    endPlayerTurnOnBust ["a", "b"] bustLossGame = .error bustLossAfter ∧
    ((allTilesList bustLossAfter : List Tile) : Multiset Tile) =
      (TILES : Multiset Tile).erase ⟨22, 1⟩ ∧
    (allTilesList bustLossGame).length = 16 ∧
    (allTilesList bustLossAfter).length = 15 := by
  decide

/-- A game in which the acting player stops on an accumulated score of 24 with
a worm while tile 24 sits in the full supply: the exact-match rule of claim C2
applies. -/
def exactClaimGame : Game :=
  { tiles := TILES
    playerStacks := [("a", []), ("b", [])]
    currentPlayerIndex := 0
    currentPlayerId := "a"
    turnState :=
      { availableDice := 3, selectedFaces := ["worm", "4", "5"], currentScore := 24,
        hasWorm := true, rolledDice := [] } }

/-- Claim C2 evaluated at its failing input: with worm, score 24 and tile 24
present in the supply, claiming tile 24 hands the player tile 25 instead —
`game.tiles.splice(tileIndex + 1, 1)` removes the tile after the found index —
and tile 24 stays in the supply. -/
theorem exact_claim_takes_wrong_tile :
    exactClaimGame.turnState.hasWorm = true ∧
    exactClaimGame.turnState.currentScore = 24 ∧
    (⟨24, 1⟩ : Tile) ∈ exactClaimGame.tiles ∧
    getStack (endPlayerTurn ["a", "b"] exactClaimGame 24 "a").game.playerStacks "a" =
      [⟨25, 2⟩] ∧
    (⟨24, 1⟩ : Tile) ∈ (endPlayerTurn ["a", "b"] exactClaimGame 24 "a").game.tiles ∧
    (⟨25, 2⟩ : Tile) ∉ (endPlayerTurn ["a", "b"] exactClaimGame 24 "a").game.tiles ∧
    (endPlayerTurn ["a", "b"] exactClaimGame 24 "a").junkPushed = false := by
  decide

/-- A game about to bust with no worm and a non-empty acting stack, and no
stack top equal to the score, so the shifted-argument bust resolution reaches
its rotation epilogue without forfeiting. -/
def bustSkipGame : Game :=
  { tiles := TILES.filter (fun t => t.number != 23)
    playerStacks := [("a", [⟨23, 1⟩]), ("b", [])]
    currentPlayerIndex := 0
    currentPlayerId := "a"
    turnState :=
      { availableDice := 6, selectedFaces := ["1", "2"], currentScore := 3,
        hasWorm := false, rolledDice := [] } }

/-- Claim C4 evaluated at its failing input: the roll whose every face is
already committed is classified as a bust with no dice consumed and no score
added (`processRoll` leaves the turn state untouched), but the resolution the
handler then runs is `endPlayerTurn` with shifted arguments, not the §4.3
rules: with `hasWormFace` false and a non-empty stack it forfeits nothing —
the stacks and the supply are exactly as before, only the rotation runs. -/
theorem bust_resolution_skips_forfeiture :
    processRoll bustSkipGame.turnState ["1", "2", "1", "2", "1", "2"] =
      .bust ["1", "2", "1", "2", "1", "2"] ∧
    bustSkipGame.turnState.hasWorm = false ∧
    getStack bustSkipGame.playerStacks "a" = [⟨23, 1⟩] ∧
    endPlayerTurnOnBust ["a", "b"] bustSkipGame =
      .ok (advanceTurn ["a", "b"] bustSkipGame, false) ∧
    (advanceTurn ["a", "b"] bustSkipGame).playerStacks = bustSkipGame.playerStacks ∧
    (advanceTurn ["a", "b"] bustSkipGame).tiles = bustSkipGame.tiles := by
  decide

/-- A turn state right after a non-bust roll (`rolledDice` non-empty), with no
intervening face commitment. -/
def secondRollState : TurnState :=
  { availableDice := 3, selectedFaces := ["5"], currentScore := 5,
    hasWorm := false, rolledDice := ["1", "2", "3"] }

/-- Counterexample to claim C7 as stated: a second `rollDice` without an
intervening commitment does not fail — `processRoll` accepts it and silently
re-rolls, overwriting `rolledDice`. -/
theorem second_roll_is_accepted :
    secondRollState.rolledDice ≠ [] ∧
    processRoll secondRollState ["4", "4", "4"] =
      .rolled { secondRollState with rolledDice := ["4", "4", "4"] } ["4"] := by
  decide

/-- Claim C7 (amended): `processRoll` rejects a roll only when no dice are
available (the code has no `AwaitingRoll` / `AwaitingCommitment` guard); with
dice available it always either re-rolls — overwriting `rolledDice`, the rest
of the turn state unchanged — or busts, even directly after a previous
non-bust roll. -/
theorem processRoll_only_invalid_when_no_dice (ts : TurnState) (outcome : List Face) :
    (ts.availableDice ≤ 0 → processRoll ts outcome = .invalid "No dice available") ∧
    (0 < ts.availableDice →
      (∃ fs, processRoll ts outcome = .rolled { ts with rolledDice := outcome } fs) ∨
        processRoll ts outcome = .bust outcome) := by
  constructor
  · intro h
    simp [processRoll, h]
  · intro h
    simp only [processRoll, if_neg (not_le.mpr h)]
    split
    · exact Or.inr rfl
    · exact Or.inl ⟨_, rfl⟩

/-- Witness for claim C7 (amended): a second roll after a non-bust roll is
accepted. -/
theorem processRoll_only_invalid_when_no_dice_witness :
    (∃ fs, processRoll secondRollState ["4", "4", "4"] =
        .rolled { secondRollState with rolledDice := ["4", "4", "4"] } fs) ∨
      processRoll secondRollState ["4", "4", "4"] = .bust ["4", "4", "4"] :=
  (processRoll_only_invalid_when_no_dice secondRollState ["4", "4", "4"]).2 (by decide)

/-- Claim C6: `selectDiceFace` fails with the face-already-committed error
(`"Face already selected this turn"`, the spec's `FaceAlreadyCommitted`) when
the face is already committed, fails with `"Face not in current roll"` (the
spec's `FaceNotInCurrentRoll`) when it is absent from the last roll, and on
success adds `value * count` to the score (value 5 for `"worm"`, else the
numeric face value), consumes `count` dice, appends the face to
`selectedFaces`, sets `hasWorm` for the worm face and clears the last roll. -/
theorem selectDiceFace_spec (ts : TurnState) (face : Face) :
    (face ∈ ts.selectedFaces →
      selectDiceFace ts face = .failure "Face already selected this turn") ∧
    (face ∉ ts.selectedFaces → face ∉ ts.rolledDice →
      selectDiceFace ts face = .failure "Face not in current roll") ∧
    (face ∉ ts.selectedFaces → face ∈ ts.rolledDice →
      selectDiceFace ts face =
        .success
          { availableDice := ts.availableDice - (countFace ts.rolledDice face : Int)
            selectedFaces := ts.selectedFaces ++ [face]
            currentScore := ts.currentScore +
              (if face = "worm" then (5 : Int) else faceNumericValue face) *
                (countFace ts.rolledDice face : Int)
            hasWorm := ts.hasWorm || (face == "worm")
            rolledDice := [] }
          (countFace ts.rolledDice face)
          ((if face = "worm" then (5 : Int) else faceNumericValue face) *
            (countFace ts.rolledDice face : Int))) := by
  refine ⟨?_, ?_, ?_⟩
  · intro h
    simp only [selectDiceFace, if_pos (List.elem_iff.mpr h)]
  · intro h1 h2
    have hc1 : ¬ (ts.selectedFaces.contains face = true) :=
      fun hc => h1 (List.elem_iff.mp hc)
    have hc2 : ts.rolledDice.contains face = false :=
      Bool.eq_false_iff.mpr (fun hc => h2 (List.elem_iff.mp hc))
    simp [selectDiceFace, if_neg hc1, hc2, h1, h2]
  · intro h1 h2
    have hc1 : ¬ (ts.selectedFaces.contains face = true) :=
      fun hc => h1 (List.elem_iff.mp hc)
    have hc2 : ts.rolledDice.contains face = true := List.elem_iff.mpr h2
    simp [selectDiceFace, if_neg hc1, hc2, calculateDiceValue, h1, h2]

/-- Witness for claim C6: committing `"worm"` from the roll
`["1", "1", "5", "worm", "worm"]` on a fresh turn adds 10 points, consumes two
dice and sets the worm flag. -/
theorem selectDiceFace_spec_witness :
    selectDiceFace { initTurnState with rolledDice := ["1", "1", "5", "worm", "worm"] }
        "worm" =
      .success
        { availableDice :=
            ({ initTurnState with
                rolledDice := ["1", "1", "5", "worm", "worm"] } : TurnState).availableDice -
              (countFace ["1", "1", "5", "worm", "worm"] "worm" : Int)
          selectedFaces := [] ++ ["worm"]
          currentScore := 0 +
            (if ("worm" : Face) = "worm" then (5 : Int) else faceNumericValue "worm") *
              (countFace ["1", "1", "5", "worm", "worm"] "worm" : Int)
          hasWorm := false || (("worm" : Face) == "worm")
          rolledDice := [] }
        (countFace ["1", "1", "5", "worm", "worm"] "worm")
        ((if ("worm" : Face) = "worm" then (5 : Int) else faceNumericValue "worm") *
          (countFace ["1", "1", "5", "worm", "worm"] "worm" : Int)) :=
  (selectDiceFace_spec { initTurnState with rolledDice := ["1", "1", "5", "worm", "worm"] }
    "worm").2.2 (by decide) (by decide)

lemma foldl_winnerStep_spec (l : List (String × List Tile)) (m : Int) (w : Option String) :
    ((∀ e ∈ l, (stackWorms e.2 : Int) ≤ m) ∧ l.foldl winnerStep (m, w) = (m, w)) ∨
    (∃ l1 e l2, l = l1 ++ e :: l2 ∧
      l.foldl winnerStep (m, w) = ((stackWorms e.2 : Int), some e.1) ∧
      m < (stackWorms e.2 : Int) ∧
      (∀ e2 ∈ l1, (stackWorms e2.2 : Int) < (stackWorms e.2 : Int)) ∧
      (∀ e2 ∈ l2, (stackWorms e2.2 : Int) ≤ (stackWorms e.2 : Int))) := by
  induction l generalizing m w with
  | nil => exact Or.inl ⟨by simp, rfl⟩
  | cons a l ih =>
    simp only [List.foldl_cons]
    by_cases ha : m < (stackWorms a.2 : Int)
    · rw [show winnerStep (m, w) a = ((stackWorms a.2 : Int), some a.1) by
        simp [winnerStep, ha]]
      rcases ih (stackWorms a.2 : Int) (some a.1) with
        ⟨hall, heq⟩ | ⟨l1, e, l2, hsplit, heq, hlt, hpre, hpost⟩
      · exact Or.inr ⟨[], a, l, by simp, heq, ha, by simp, hall⟩
      · refine Or.inr ⟨a :: l1, e, l2, by simp [hsplit], heq, lt_trans ha hlt, ?_, hpost⟩
        intro e2 he2
        rcases List.mem_cons.mp he2 with rfl | he2
        · exact hlt
        · exact hpre e2 he2
    · rw [show winnerStep (m, w) a = (m, w) by simp [winnerStep, ha]]
      rcases ih m w with ⟨hall, heq⟩ | ⟨l1, e, l2, hsplit, heq, hlt, hpre, hpost⟩
      · refine Or.inl ⟨?_, heq⟩
        intro e2 he2
        rcases List.mem_cons.mp he2 with rfl | he2
        · exact not_lt.mp ha
        · exact hall e2 he2
      · refine Or.inr ⟨a :: l1, e, l2, by simp [hsplit], heq, hlt, ?_, hpost⟩
        intro e2 he2
        rcases List.mem_cons.mp he2 with rfl | he2
        · exact lt_of_le_of_lt (not_lt.mp ha) hlt
        · exact hpre e2 he2

/-- Claim C8: `calculateWinner` returns the participant whose stack has the
maximum total worm count, and on a tie the first participant reaching that
maximum in participant order (`Object.entries` enumerates `playerStacks` in
insertion order): every earlier entry is strictly below the winner's total and
every entry is at most it. -/
theorem calculateWinner_first_max (sts : List (String × List Tile)) (h : sts ≠ []) :
    ∃ l1 pid s l2, sts = l1 ++ (pid, s) :: l2 ∧
      calculateWinner sts = (some pid, (stackWorms s : Int)) ∧
      (∀ e ∈ l1, stackWorms e.2 < stackWorms s) ∧
      (∀ e ∈ sts, stackWorms e.2 ≤ stackWorms s) := by
  rcases foldl_winnerStep_spec sts (-1) none with
    ⟨hall, _⟩ | ⟨l1, e, l2, hsplit, heq, _, hpre, hpost⟩
  · obtain ⟨a, rest, rfl⟩ := List.exists_cons_of_ne_nil h
    have := hall a (List.mem_cons_self a rest)
    have h0 : (0 : Int) ≤ (stackWorms a.2 : Int) := Int.natCast_nonneg _
    omega
  · obtain ⟨pid, s⟩ := e
    refine ⟨l1, pid, s, l2, hsplit, ?_, ?_, ?_⟩
    · simp [calculateWinner, heq]
    · intro e2 he2
      exact_mod_cast hpre e2 he2
    · intro e2 he2
      rw [hsplit] at he2
      rcases List.mem_append.mp he2 with he2 | he2
      · exact le_of_lt (by exact_mod_cast hpre e2 he2)
      · rcases List.mem_cons.mp he2 with rfl | he2
        · exact le_refl _
        · exact_mod_cast hpost e2 he2

/-- Witness for claim C8 at a concrete stack map: with totals 1, 2, 2 the
winner is `"b"`, the first participant reaching the maximum. -/
theorem calculateWinner_first_max_witness :
    ∃ l1 pid s l2,
      [("a", [(⟨21, 1⟩ : Tile)]), ("b", [⟨25, 2⟩]), ("c", [⟨26, 2⟩])] =
        l1 ++ (pid, s) :: l2 ∧
      calculateWinner [("a", [(⟨21, 1⟩ : Tile)]), ("b", [⟨25, 2⟩]), ("c", [⟨26, 2⟩])] =
        (some pid, (stackWorms s : Int)) ∧
      (∀ e ∈ l1, stackWorms e.2 < stackWorms s) ∧
      (∀ e ∈ [("a", [(⟨21, 1⟩ : Tile)]), ("b", [⟨25, 2⟩]), ("c", [⟨26, 2⟩])],
        stackWorms e.2 ≤ stackWorms s) :=
  calculateWinner_first_max
    [("a", [(⟨21, 1⟩ : Tile)]), ("b", [⟨25, 2⟩]), ("c", [⟨26, 2⟩])] (by decide)

/-- Turn states reachable within one turn, together with the total number of
dice consumed by the committed faces so far. A turn starts from
`initTurnState`; a roll draws exactly `availableDice` dice (the JS loop bound)
and consumes none; a successful face commitment consumes its `count` dice. -/
inductive Reach : TurnState → Nat → Prop
  | init : Reach initTurnState 0
  | roll {ts : TurnState} {c : Nat} {outcome : List Face} {ts2 : TurnState}
      {fs : List Face} :
      Reach ts c → outcome.length = ts.availableDice.toNat →
      processRoll ts outcome = .rolled ts2 fs → Reach ts2 c
  | select {ts : TurnState} {c : Nat} {face : Face} {ts2 : TurnState} {count : Nat}
      {pts : Int} :
      Reach ts c → selectDiceFace ts face = .success ts2 count pts →
      Reach ts2 (c + count)

lemma processRoll_rolled_inv {ts : TurnState} {outcome : List Face} {ts2 : TurnState}
    {fs : List Face} (h : processRoll ts outcome = .rolled ts2 fs) :
    0 < ts.availableDice ∧ ts2 = { ts with rolledDice := outcome } := by
  unfold processRoll at h
  split at h
  · exact absurd h (by simp)
  · next hpos =>
    refine ⟨not_le.mp hpos, ?_⟩
    simp only [] at h
    split at h
    · exact absurd h (by simp)
    · exact (RollResult.rolled.injEq _ _ _ _ |>.mp h).1.symm

lemma selectDiceFace_success_inv {ts : TurnState} {face : Face} {ts2 : TurnState}
    {count : Nat} {pts : Int}
    (h : selectDiceFace ts face = .success ts2 count pts) :
    face ∈ ts.rolledDice ∧ count = countFace ts.rolledDice face ∧
    ts2.availableDice = ts.availableDice - (count : Int) ∧ ts2.rolledDice = [] := by
  unfold selectDiceFace at h
  split at h
  · exact absurd h (by simp)
  · split at h
    · exact absurd h (by simp)
    · next hmem =>
      obtain ⟨hts, hcount, _⟩ := SelectResult.success.injEq _ _ _ _ _ _ |>.mp h
      refine ⟨List.elem_iff.mp (by simpa using hmem), hcount.symm, ?_, ?_⟩
      · rw [← hts, hcount]
      · rw [← hts]

lemma countFace_le_length (roll : List Face) (face : Face) :
    countFace roll face ≤ roll.length :=
  List.length_filter_le _ _

lemma reach_accounting {ts : TurnState} {c : Nat} (h : Reach ts c) :
    0 ≤ ts.availableDice ∧ ts.availableDice + (c : Int) = 8 ∧
    (ts.rolledDice = [] ∨ (ts.rolledDice.length : Int) = ts.availableDice) := by
  induction h with
  | init => exact ⟨by decide, by decide, Or.inl rfl⟩
  | @roll ts c outcome ts2 fs _ hlen hp ih =>
    obtain ⟨ih1, ih2, _⟩ := ih
    obtain ⟨_, hts2⟩ := processRoll_rolled_inv hp
    subst hts2
    refine ⟨ih1, ih2, Or.inr ?_⟩
    simp only
    rw [hlen, Int.toNat_of_nonneg ih1]
  | @select ts c face ts2 count pts _ hs ih =>
    obtain ⟨ih1, ih2, ih3⟩ := ih
    obtain ⟨hmem, hcount, havail, hroll⟩ := selectDiceFace_success_inv hs
    have hne : ts.rolledDice ≠ [] := List.ne_nil_of_mem hmem
    have hlen : (ts.rolledDice.length : Int) = ts.availableDice := ih3.resolve_left hne
    have hcle : (count : Int) ≤ ts.availableDice := by
      rw [← hlen, hcount]
      exact_mod_cast countFace_le_length ts.rolledDice face
    refine ⟨by rw [havail]; omega, by rw [havail]; push_cast; omega, Or.inl hroll⟩

/-- Claim C9: in every turn state reachable by the roll / face-commitment
machinery, `availableDice` lies in `[0, 8]` and equals 8 minus the total
number of dice consumed by the committed faces, and the initial (and reset)
turn state starts with 8 dice. -/
theorem dice_accounting_invariant (ts : TurnState) (c : Nat) (h : Reach ts c) :
    0 ≤ ts.availableDice ∧ ts.availableDice ≤ 8 ∧
    ts.availableDice + (c : Int) = 8 ∧ initTurnState.availableDice = 8 := by
  obtain ⟨h1, h2, _⟩ := reach_accounting h
  refine ⟨h1, by omega, h2, rfl⟩

/-- Witness for claim C9 at the initial turn state. -/
theorem dice_accounting_invariant_witness :
    0 ≤ initTurnState.availableDice ∧ initTurnState.availableDice ≤ 8 ∧
    initTurnState.availableDice + ((0 : Nat) : Int) = 8 ∧
    initTurnState.availableDice = 8 :=
  dice_accounting_invariant initTurnState 0 Reach.init

end Wurmke
